import Mathlib

/-!
Verification development for the DocSage core orchestration subsystem:
the Response Parser, the Extraction Job Tracker, the Conversation Cache
with the Ask orchestrator, and the React client polling / UI handlers
(Dashboard.jsx, AdaptiveDetailsPage.jsx).

The backend services (llm_services, conversation_services) are modelled
from the specification; the frontend handlers are embedded from the JSX
source under src/frontend/src/pages.
-/

namespace DocSage

/-- A structural JSON value, as produced by the structural decode step of
the Response Parser. `num` carries a rational so confidence arithmetic is
exact. -/
inductive Json where
  | null : Json
  | bool (b : Bool) : Json
  | num (q : Rat) : Json
  | str (s : String) : Json
  | arr (elems : List Json) : Json
  | obj (fields : List (String × Json)) : Json

/-- Field lookup on a decoded JSON object; `none` on non-objects and
missing keys. -/
def Json.getField : Json → String → Option Json
  | .obj fields, k => fields.lookup k
  | _, _ => none

/-- Modelled from the spec: confidence values must be coerced into [0,1]
(§4.2 field coercion). Clamp a rational into the unit interval. -/
def clamp01 (q : Rat) : Rat := max 0 (min 1 q)

/-- Modelled from the spec: out-of-range confidence is clamped, non-numeric
or missing confidence is defaulted to 0.0 (§4.2). -/
def coerceConfidence : Option Json → Rat
  | some (.num q) => clamp01 q
  | _ => 0

/-- Modelled from the spec: the parsed answer shape
`{answer, confidence, reasoning, source, verified}` (§4.2 contract). -/
structure ParsedAnswer where
  answer : String
  confidence : Rat
  reasoning : String
  source : Option Json
  verified : Bool

/-- Error taxonomy of the core (§7), restricted to what the parser and
orchestrator raise. -/
inductive CoreError where
  | documentNotFound : CoreError
  | invalidInput : CoreError
  | upstreamUnavailable : CoreError
  | malformedResponse : CoreError
deriving DecidableEq

/-- Modelled from the spec: shape a decoded JSON object into an answer
record. The `answer` field must be a string (the parser never fabricates an
answer, §4.2(d)); `confidence` is coerced via `coerceConfidence`;
`reasoning` defaults to empty, `source` is optional, `verified` defaults to
false (§4.2). -/
def buildAnswerRecord (j : Json) : Except CoreError ParsedAnswer :=
  match j.getField "answer" with
  | some (.str a) =>
      .ok { answer := a
            confidence := coerceConfidence (j.getField "confidence")
            reasoning := match j.getField "reasoning" with
              | some (.str r) => r
              | _ => ""
            source := j.getField "source"
            verified := match j.getField "verified" with
              | some (.bool b) => b
              | _ => false }
  | _ => .error .malformedResponse

/-- Modelled from the spec: one state transition of the bracket-depth scan
(§4.2(a)): track string-literal state (`inStr`, with `esc` for a pending
backslash escape) and brace depth, ignoring braces inside string
literals. -/
def scanStep (c : Char) (inStr esc : Bool) (depth : Nat) :
    Bool × Bool × Nat :=
  if inStr then
    if esc then (true, false, depth)
    else if c = '\\' then (true, true, depth)
    else if c = '"' then (false, false, depth)
    else (true, false, depth)
  else
    if c = '"' then (true, false, depth)
    else if c = '{' then (false, false, depth + 1)
    else if c = '}' then (false, false, depth - 1)
    else (false, false, depth)

/-- Modelled from the spec: the bracket-depth scan (§4.2(a)). Consume
characters through `scanStep`; return the consumed chunk when a closing
brace outside a string literal brings the depth from one back to zero,
`none` if the input ends first. `acc` holds the consumed characters in
reverse. -/
def scanChunk : List Char → Bool → Bool → Nat → List Char → Option (List Char)
  | [], _, _, _, _ => none
  | c :: rest, inStr, esc, depth, acc =>
    if inStr = false ∧ c = '}' ∧ depth = 1 then some ((c :: acc).reverse)
    else
      scanChunk rest (scanStep c inStr esc depth).1
        (scanStep c inStr esc depth).2.1 (scanStep c inStr esc depth).2.2
        (c :: acc)

/-- Modelled from the spec: locate the first balanced braced span in the
raw text (§4.2(a)): at each position starting a brace, attempt the
bracket-depth scan; return the first successful chunk. -/
def findSpan : List Char → Option (List Char)
  | [] => none
  | c :: rest =>
    if c = '{' then
      match scanChunk (c :: rest) false false 0 [] with
      | some chunk => some chunk
      | none => findSpan rest
    else findSpan rest

/-- A character list is a balanced braced span when the bracket-depth scan
consumes it exactly. -/
def IsBalancedSpan (cs : List Char) : Prop :=
  scanChunk cs false false 0 [] = some cs

/-- A raw text has a balanced braced span when some contiguous sub-list of
its characters is one. -/
def HasBalancedSpan (raw : String) : Prop :=
  ∃ i n, IsBalancedSpan ((raw.data.drop i).take n)

/-- Modelled from the spec: `parse_answer` (§4.2). Locate the first
balanced span; structurally decode it; on failure apply one repair pass and
retry once; if still failing raise MalformedResponse, never fabricating an
answer. The structural decoder and the repair pass are parameters, so every
theorem below holds for any decoder. -/
def parse_answer (decode : String → Option Json) (repair : String → String)
    (raw : String) : Except CoreError ParsedAnswer :=
  match findSpan raw.data with
  | none => .error .malformedResponse
  | some chunk =>
    let s := String.mk chunk
    match decode s with
    | some j => buildAnswerRecord j
    | none =>
      match decode (repair s) with
      | some j => buildAnswerRecord j
      | none => .error .malformedResponse

/-! ## Extraction Job Tracker (§3 Extraction Job, §4.3) -/

/-- Modelled from the spec: classification result
{document type label, description, confidence} (§3). -/
structure ClassificationResult where
  documentType : String
  description : String
  confidence : Rat
deriving DecidableEq

/-- Modelled from the spec: a field value {value, confidence} (§3);
the value is carried as its string rendering. -/
structure FieldValue where
  value : String
  confidence : Rat
deriving DecidableEq

/-- Modelled from the spec: an Extraction Result — a mapping of field name
to Field Value paired with exactly one Classification Result (§3). -/
structure ExtractionResult where
  classification : ClassificationResult
  fieldValues : List (String × FieldValue)
deriving DecidableEq

/-- Modelled from the spec: Extraction Job status (§4.3 states). A job
record only exists once started, so NOT_STARTED is the absence of a
record in the arena. -/
inductive JobStatus where
  | running : JobStatus
  | succeeded : JobStatus
  | failed : JobStatus
deriving DecidableEq, BEq

/-- Modelled from the spec: an Extraction Job record
{document identity, status, result, error detail, started timestamp} (§3).
`jobId` identifies the underlying background job (the handle returned to
callers). -/
structure Job where
  docId : String
  jobId : Nat
  status : JobStatus
  result : Option ExtractionResult
  errorDetail : Option String
  startedAt : Nat
deriving DecidableEq

/-- Modelled from the spec: the arena of Extraction Job records keyed by
document identity (§9), with a fresh-id counter and a logical clock for
started timestamps. -/
structure Tracker where
  jobs : List Job
  nextId : Nat
  clock : Nat
deriving DecidableEq

/-- The empty tracker: every document identity is NOT_STARTED. -/
def Tracker.init : Tracker := { jobs := [], nextId := 0, clock := 0 }

/-- A job record is attachable for a document identity when it belongs to
that identity and is RUNNING or SUCCEEDED (§4.3 `start_or_attach`). -/
def attachPred (d : String) (j : Job) : Bool :=
  j.docId == d && (j.status == .running || j.status == .succeeded)

/-- Modelled from the spec: the attachable job for a document identity, if
any. -/
def attachable (t : Tracker) (d : String) : Option Job :=
  t.jobs.find? (attachPred d)

/-- Modelled from the spec: `start_or_attach` (§4.3) — if a RUNNING or
SUCCEEDED job exists for the identity, return its handle without starting
new work; otherwise (no job, or only FAILED jobs) atomically create a fresh
RUNNING job. Returns the new tracker, the job handle, and whether a new
background job was started. -/
def start_or_attach (t : Tracker) (d : String) : Tracker × Nat × Bool :=
  match attachable t d with
  | some j => (t, j.jobId, false)
  | none =>
    let j : Job :=
      { docId := d, jobId := t.nextId, status := .running
        result := none, errorDetail := none, startedAt := t.clock }
    ({ jobs := j :: t.jobs, nextId := t.nextId + 1, clock := t.clock + 1 },
     t.nextId, true)

/-- Modelled from the spec: the per-record conditional write (§5 optimistic
concurrency): finish the job with the given handle only if its current
status is RUNNING; any other record is left untouched. -/
def casFinish (id : Nat) (o : Except String ExtractionResult) (j : Job) : Job :=
  if j.jobId == id && j.status == .running then
    match o with
    | .ok r => { j with status := .succeeded, result := some r }
    | .error e => { j with status := .failed, errorDetail := some e }
  else j

/-- Modelled from the spec: completion of the background work (§4.3):
transition RUNNING to SUCCEEDED or FAILED through a conditional write; a
write against a non-RUNNING job is a lost compare-and-swap and changes
nothing. Returns whether the write took effect. -/
def complete (t : Tracker) (id : Nat) (o : Except String ExtractionResult) :
    Tracker × Bool :=
  if t.jobs.any (fun j => j.jobId == id && j.status == .running) then
    ({ t with jobs := t.jobs.map (casFinish id o) }, true)
  else (t, false)

/-- An operation against the tracker: a `start_or_attach` request or a
background-work completion. `poll` is a pure read (§4.3) and does not
change the state. -/
inductive TrackerOp where
  | start (d : String) : TrackerOp
  | finish (id : Nat) (o : Except String ExtractionResult) : TrackerOp

/-- One state transition of the tracker. -/
def Tracker.step (t : Tracker) : TrackerOp → Tracker
  | .start d => (start_or_attach t d).1
  | .finish id o => (complete t id o).1

/-- Run a sequence of operations from the empty tracker; its results are
the reachable states. -/
def Tracker.run (ops : List TrackerOp) : Tracker :=
  ops.foldl Tracker.step Tracker.init

/-- The number of RUNNING jobs for a document identity. -/
def countRunning (t : Tracker) (d : String) : Nat :=
  (t.jobs.filter (fun j => j.docId == d && j.status == .running)).length

/-- A document identity is never-before-seen when no job record for it
exists. -/
def NoJobFor (t : Tracker) (d : String) : Prop :=
  ∀ j ∈ t.jobs, j.docId ≠ d

/-- N repeated `start_or_attach` calls for one document identity,
collecting the returned handles and started flags. The spec's conditional
write totally orders the concurrent calls (§5), so the interleaving is a
sequence. -/
def startN (d : String) : Nat → Tracker → Tracker × List (Nat × Bool)
  | 0, t => (t, [])
  | n + 1, t =>
    ((startN d n (start_or_attach t d).1).1,
      (start_or_attach t d).2 :: (startN d n (start_or_attach t d).1).2)

/-- The job records of a given document identity. -/
def jobsFor (t : Tracker) (d : String) : List Job :=
  t.jobs.filter (fun j => j.docId == d)

/-- The at-most-one-RUNNING invariant (§3). -/
def RunInv (t : Tracker) : Prop := ∀ d, countRunning t d ≤ 1

/-- The job record created by the first `start_or_attach` for a fresh
document identity. -/
def freshJob (t : Tracker) (d : String) : Job :=
  { docId := d, jobId := t.nextId, status := .running
    result := none, errorDetail := none, startedAt := t.clock }

/-- The tracker after the first `start_or_attach` for a fresh document
identity. -/
def afterFirstStart (t : Tracker) (d : String) : Tracker :=
  { jobs := freshJob t d :: t.jobs, nextId := t.nextId + 1
    clock := t.clock + 1 }

/-! ## Conversation Cache and Ask orchestrator (§4.1, §4.4) -/

/-- Modelled from the spec: a Question/Answer Record
{document identity, question text, answer text, confidence, reasoning,
source citation, verified flag, created timestamp} (§3). -/
structure QARecord where
  docId : String
  question : String
  answer : String
  confidence : Rat
  reasoning : String
  source : Option Json
  verified : Bool
  createdAt : Nat

/-- Whitespace trimming of the question text, as a character-level map. -/
def strTrim (s : String) : String :=
  String.mk
    (((s.data.dropWhile Char.isWhitespace).reverse.dropWhile
        Char.isWhitespace).reverse)

/-- Modelled from the spec: Conversation Cache `get` — exact question text
match, keyed by (document identity, question text) (§4.4). -/
def cacheGet (cache : List QARecord) (d q : String) : Option QARecord :=
  cache.find? (fun r => r.docId == d && r.question == q)

/-- Modelled from the spec: the external collaborators and the parser
configuration the Ask orchestrator composes (§6): the Document Text
Provider, the Completion Client (`none` is an upstream failure), the
structural decoder and the repair pass of the Response Parser, and the
prompt construction. -/
structure AskEnv where
  getText : String → Option (List (Nat × String))
  completeText : String → Option String
  decode : String → Option Json
  repair : String → String
  buildPrompt : String → List (Nat × String) → String

/-- Build the Question/Answer Record persisted for a parsed answer. -/
def mkRecord (d q : String) (pa : ParsedAnswer) (now : Nat) : QARecord :=
  { docId := d, question := q, answer := pa.answer
    confidence := pa.confidence, reasoning := pa.reasoning
    source := pa.source, verified := pa.verified, createdAt := now }

/-- Modelled from the spec: the Ask orchestrator (§4.1). Reject an empty
question; consult the Conversation Cache for an exact match and return it
immediately on a hit with no model call; on a miss fetch the document text
(DocumentNotFound if absent), invoke the Completion Client
(UpstreamUnavailable on failure, an empty completion is MalformedResponse
§6), parse the raw text, and persist the record before returning it.
The third component counts Completion Client invocations. -/
def ask (env : AskEnv) (cache : List QARecord) (d q : String) (now : Nat) :
    Except CoreError QARecord × List QARecord × Nat :=
  if strTrim q = "" then (.error .invalidInput, cache, 0)
  else
    match cacheGet cache d q with
    | some r => (.ok r, cache, 0)
    | none =>
      match env.getText d with
      | none => (.error .documentNotFound, cache, 0)
      | some pages =>
        match env.completeText (env.buildPrompt q pages) with
        | none => (.error .upstreamUnavailable, cache, 1)
        | some raw =>
          if raw = "" then (.error .malformedResponse, cache, 1)
          else
            match parse_answer env.decode env.repair raw with
            | .error e => (.error e, cache, 1)
            | .ok pa =>
              let rec' := mkRecord d q pa now
              (.ok rec', rec' :: cache, 1)

/-- Render a Question/Answer Record as the JSON body of a 200 response;
the answer field is always a JSON string. -/
def recordJson (r : QARecord) : Json :=
  .obj [("question", .str r.question), ("answer", .str r.answer),
        ("confidence", .num r.confidence), ("reasoning", .str r.reasoning),
        ("source", r.source.getD .null), ("verified", .bool r.verified)]

/-- Map a core error to its HTTP status (§6, §7). -/
def errorStatus : CoreError → Nat
  | .documentNotFound => 404
  | .invalidInput => 422
  | .upstreamUnavailable => 502
  | .malformedResponse => 502

/-- Modelled from the spec: the Ask HTTP endpoint (§6) — 200 with the full
record on success, an error status otherwise. Returns the status, the
body, and the cache after the call. -/
def askEndpoint (env : AskEnv) (cache : List QARecord) (d q : String)
    (now : Nat) : Nat × Json × List QARecord :=
  match ask env cache d q now with
  | (.ok r, cache', _) => (200, recordJson r, cache')
  | (.error e, cache', _) =>
      (errorStatus e, .obj [("error", .bool true)], cache')

/-! ## Extract endpoint and client polling loops
(§6 extract, Dashboard.jsx and AdaptiveDetailsPage.jsx) -/

/-- The body of an extract response: the intermediate processing payload or
a terminal Extraction Result (§6). -/
inductive ExtractResp where
  | processing : ExtractResp
  | done (r : ExtractionResult) : ExtractResp
deriving DecidableEq

/-- Modelled from the spec: the Extract endpoint (§6): attach to a RUNNING
job and answer `processing` immediately; answer the stored payload for a
SUCCEEDED job; otherwise (no job, or FAILED) start a fresh RUNNING job and
answer `processing`. -/
def extract (t : Tracker) (d : String) : Tracker × ExtractResp :=
  match attachable t d with
  | some j =>
    match j.status, j.result with
    | .succeeded, some r => (t, .done r)
    | _, _ => (t, .processing)
  | none => ((start_or_attach t d).1, .processing)

/-- One response observed by the client polling loop: a processing
response, a successful terminal payload (`res.ok` with a non-processing
body), or a failed fetch (`!res.ok` or a network error). -/
inductive PollResp where
  | processing : PollResp
  | success (p : ExtractionResult) : PollResp
  | failure : PollResp
deriving DecidableEq

/-- The observable outcome of a client polling loop: the bodies (file_hash
values) of the requests it issued, the payload it recorded via
setAdaptiveData/setDetails if any, and whether it stopped in the catch
branch. -/
structure PollOutcome where
  requests : List String
  recorded : Option ExtractionResult
  failed : Bool
deriving DecidableEq

/-- The `fetchDetails` polling loop of Dashboard.jsx handleShowKeyValues
(lines 152-188): issue a POST with the same file_hash, and on a
`processing` body schedule the identical call again; on a non-processing
body record it and stop; on a failed fetch stop in the catch branch. The
response trace is the argument; an exhausted trace is a still-pending
loop. -/
def fetchLoop (h : String) : List PollResp → PollOutcome
  | [] => { requests := [h], recorded := none, failed := false }
  | .processing :: rest =>
    let o := fetchLoop h rest
    { requests := h :: o.requests, recorded := o.recorded, failed := o.failed }
  | .success p :: _ => { requests := [h], recorded := some p, failed := false }
  | .failure :: _ => { requests := [h], recorded := none, failed := true }

/-- The `fetchDetails` polling loop of AdaptiveDetailsPage.jsx
(lines 15-54): identical to the Dashboard loop except that each entry
first checks the `isCancelled` flag and returns without issuing a request
when it is set. `cancelled i` is the flag's value when iteration `i`
runs. -/
def adaptiveLoop (h : String) (cancelled : Nat → Bool) :
    Nat → List PollResp → PollOutcome
  | i, resps =>
    if cancelled i then { requests := [], recorded := none, failed := false }
    else
      match resps with
      | [] => { requests := [h], recorded := none, failed := false }
      | .processing :: rest =>
        let o := adaptiveLoop h cancelled (i + 1) rest
        { requests := h :: o.requests, recorded := o.recorded
          failed := o.failed }
      | .success p :: _ =>
        { requests := [h], recorded := some p, failed := false }
      | .failure :: _ => { requests := [h], recorded := none, failed := true }

/-- The Dashboard state touched by the key-value polling loop. -/
structure DashState where
  activeConversationId : Option String
  adaptiveData : Option ExtractionResult
  isAdaptiveLoading : Bool
deriving DecidableEq

/-- The terminal branch of the Dashboard loop (lines 179-181):
`setAdaptiveData(data); setIsAdaptiveLoading(false)` — applied to whatever
the current state is, with no check of the active document. -/
def dashOnTerminal (s : DashState) (p : ExtractionResult) : DashState :=
  { s with adaptiveData := some p, isAdaptiveLoading := false }

/-! ## Client-side source coercion (Dashboard.jsx handleSend lines 500-512,
handleConversationClick lines 392-399) -/

/-- A JavaScript value as the handlers see it: undefined, null, boolean,
number, string, object or array. -/
inductive JsValue where
  | undefined : JsValue
  | null : JsValue
  | bool (b : Bool) : JsValue
  | num (q : Rat) : JsValue
  | str (s : String) : JsValue
  | obj (fields : List (String × JsValue)) : JsValue
  | arr (elems : List JsValue) : JsValue

/-- The source coercion of handleSend (Dashboard.jsx lines 500-507):
`let sourceData = null; if (typeof v === 'string') try sourceData =
JSON.parse(v) catch; else if (typeof v === 'object' && v !== null)
sourceData = v;`. `jsonParse` is the JSON.parse semantics, `none` being a
thrown SyntaxError (caught, leaving null). Objects and arrays both have
typeof "object" and are non-null; null itself is excluded by the
explicit check; undefined, numbers and booleans fall through. -/
def coerceSource (jsonParse : String → Option JsValue) : JsValue → JsValue
  | .str s =>
    match jsonParse s with
    | some j => j
    | none => .null
  | .obj fields => .obj fields
  | .arr elems => .arr elems
  | _ => .null

/-- The identical coercion in handleSend (lines 500-507). -/
def handleSendSource (jsonParse : String → Option JsValue) (v : JsValue) :
    JsValue := coerceSource jsonParse v

/-- The identical coercion in handleConversationClick (lines 392-399). -/
def handleConversationClickSource (jsonParse : String → Option JsValue)
    (v : JsValue) : JsValue := coerceSource jsonParse v

/-- Optional-chained property access `v?.k`: undefined on null, undefined,
primitives, and missing keys. -/
def jsGet : JsValue → String → JsValue
  | .obj fields, k =>
    match fields.lookup k with
    | some v => v
    | none => .undefined
  | _, _ => .undefined

/-- JavaScript truthiness of the modelled values. -/
def truthy : JsValue → Bool
  | .undefined => false
  | .null => false
  | .bool b => b
  | .num q => decide (q ≠ 0)
  | .str s => decide (s ≠ "")
  | .obj _ => true
  | .arr _ => true

/-- The highlight guard of handleSend (lines 509-512):
`if (sourceData?.page_number && sourceData?.search_anchor)
 { setPdfPageNumber(...); setHighlightText(...) }`; `none` means the
highlight is not set. -/
def highlightOf (sourceData : JsValue) : Option (JsValue × JsValue) :=
  if truthy (jsGet sourceData "page_number") &&
     truthy (jsGet sourceData "search_anchor") then
    some (jsGet sourceData "page_number", jsGet sourceData "search_anchor")
  else none

/-- A field is present in the parsed source when accessing it does not give
undefined. -/
def PresentIn (sourceData : JsValue) (k : String) : Prop :=
  jsGet sourceData k ≠ .undefined

/-! ## Document deletion (Dashboard.jsx handleDelete lines 547-592) -/

/-- The result of `prompt(...)`: null when the user cancels, otherwise the
entered string. -/
inductive PromptResult where
  | cancelled : PromptResult
  | entered (s : String) : PromptResult

/-- A sidebar conversation entry {id, name, fileHash}. -/
structure Conv where
  id : String
  name : String
  fileHash : String
deriving DecidableEq

/-- The confirmation text of handleDelete (line 551). -/
def confirmationText : String := "confirm delete"

/-- JavaScript `toLowerCase()` on the entered string, as a character map. -/
def strToLower (s : String) : String := String.mk (s.data.map Char.toLower)

/-- The observable outcome of handleDelete: the file_hash of the
delete-file request body when one was sent, and the conversations list
afterwards. -/
structure DeleteOutcome where
  requestSent : Option String
  conversations : List Conv
deriving DecidableEq

/-- handleDelete (Dashboard.jsx lines 547-592): find the conversation;
prompt for confirmation; return on a cancelled or empty prompt
(`!userInput`); return with an alert when the lowercased input differs from
the confirmation text; otherwise send the delete-file request, and on a
successful response drop the conversation from the list (a failed response
leaves the list unchanged). `serverOk` is `res.ok` of the delete-file
request. -/
def handleDelete (convs : List Conv) (targetId : String)
    (input : PromptResult) (serverOk : Bool) : DeleteOutcome :=
  match convs.find? (fun c => c.id == targetId) with
  | none => { requestSent := none, conversations := convs }
  | some conv =>
    match input with
    | .cancelled => { requestSent := none, conversations := convs }
    | .entered s =>
      if s = "" then { requestSent := none, conversations := convs }
      else if strToLower s ≠ confirmationText then
        { requestSent := none, conversations := convs }
      else if serverOk then
        { requestSent := some conv.fileHash
          conversations := convs.filter (fun c => !(c.id == targetId)) }
      else { requestSent := some conv.fileHash, conversations := convs }

/-! ## Theorems -/

/-- C9: the client-side coercion of the source field is total (it is a
total function by construction, so it never throws): for every value of
the source field, handleSend and handleConversationClick agree and produce
the parsed value for an object, an array, or a string that JSON-parses;
null otherwise, a failing JSON.parse being caught into null; and the page
highlight is set only when both page_number and search_anchor are present
in the parsed source. -/
theorem claim_C9_source_coercion_total (jsonParse : String → Option JsValue) :
    (∀ v, handleSendSource jsonParse v =
        handleConversationClickSource jsonParse v) ∧
    (∀ fields, coerceSource jsonParse (.obj fields) = .obj fields) ∧
    (∀ elems, coerceSource jsonParse (.arr elems) = .arr elems) ∧
    (∀ s j, jsonParse s = some j → coerceSource jsonParse (.str s) = j) ∧
    (∀ s, jsonParse s = none → coerceSource jsonParse (.str s) = .null) ∧
    (coerceSource jsonParse .undefined = .null ∧
      coerceSource jsonParse .null = .null ∧
      (∀ b, coerceSource jsonParse (.bool b) = .null) ∧
      (∀ q, coerceSource jsonParse (.num q) = .null)) ∧
    (∀ sd hl, highlightOf sd = some hl →
        PresentIn sd "page_number" ∧ PresentIn sd "search_anchor") := by
  refine ⟨fun v => rfl, fun fields => rfl, fun elems => rfl, ?_, ?_,
    ⟨rfl, rfl, fun b => rfl, fun q => rfl⟩, ?_⟩
  · intro s j hp
    simp [coerceSource, hp]
  · intro s hp
    simp [coerceSource, hp]
  · intro sd hl h
    unfold highlightOf at h
    split at h
    · rename_i hcond
      rw [Bool.and_eq_true] at hcond
      constructor
      · intro hu
        rw [hu] at hcond
        simp [truthy] at hcond
      · intro hu
        rw [hu] at hcond
        simp [truthy] at hcond
    · exact absurd h (by simp)

/-- C9 witness: concrete instances of each coercion case. -/
theorem claim_C9_witness :
    handleSendSource (fun _ => none) (.str "oops") = .null ∧
    coerceSource (fun _ => some (.num 7)) (.str "7") = .num 7 ∧
    coerceSource (fun _ => none) (.num 3) = .null := by
  have h := claim_C9_source_coercion_total (fun _ => none)
  have h7 := claim_C9_source_coercion_total (fun _ => some (.num 7))
  exact ⟨h.2.2.2.2.1 "oops" rfl, h7.2.2.2.1 "7" (.num 7) rfl,
    h.2.2.2.2.2.1.2.2.2 3⟩

/-- C10: handleDelete sends the delete-file request if and only if the
prompt input, lowercased, equals the confirmation text; a matching input
with a successful server response removes the document from the local
conversations list; an empty, cancelled or non-matching input sends no
request and leaves the list unchanged. -/
theorem claim_C10_delete_confirmation
    (convs : List Conv) (targetId : String) (conv : Conv)
    (hfind : convs.find? (fun c => c.id == targetId) = some conv)
    (input : PromptResult) (serverOk : Bool) :
    ((handleDelete convs targetId input serverOk).requestSent ≠ none ↔
        ∃ s, input = .entered s ∧ strToLower s = confirmationText) ∧
    (∀ s, input = .entered s → strToLower s = confirmationText →
        serverOk = true →
        (handleDelete convs targetId input serverOk).conversations =
          convs.filter (fun c => !(c.id == targetId)) ∧
        conv ∉ (handleDelete convs targetId input serverOk).conversations) ∧
    ((¬ ∃ s, input = .entered s ∧ strToLower s = confirmationText) →
        handleDelete convs targetId input serverOk =
          { requestSent := none, conversations := convs }) := by
  have hid := List.find?_some hfind
  simp only at hid
  have hnotmem : conv ∉ convs.filter (fun c => !(c.id == targetId)) := by
    intro hmem
    have := (List.mem_filter.mp hmem).2
    rw [hid] at this
    simp at this
  cases input with
  | cancelled =>
    refine ⟨?_, ?_, ?_⟩
    · simp [handleDelete, hfind]
    · intro s hs
      exact absurd hs (by simp)
    · intro _
      simp [handleDelete, hfind]
  | entered s =>
    by_cases hmatch : strToLower s = confirmationText
    · have hne : s ≠ "" := by
        intro he
        rw [he] at hmatch
        exact absurd hmatch (by decide)
      refine ⟨?_, ?_, ?_⟩
      · constructor
        · intro _
          exact ⟨s, rfl, hmatch⟩
        · intro _
          cases serverOk <;>
            simp [handleDelete, hfind, hne, hmatch]
      · intro s' hs' hlow hok
        cases hs'
        rw [hok]
        refine ⟨?_, ?_⟩
        · simp [handleDelete, hfind, hne, hmatch]
        · simp only [handleDelete, hfind, if_neg hne, hmatch]
          simpa using hnotmem
      · intro hno
        exact absurd ⟨s, rfl, hmatch⟩ hno
    · refine ⟨?_, ?_, ?_⟩
      · constructor
        · intro hreq
          by_cases hne : s = "" <;>
            simp [handleDelete, hfind, hne, hmatch] at hreq
        · rintro ⟨s', hs', hlow⟩
          cases hs'
          exact absurd hlow hmatch
      · intro s' hs' hlow
        cases hs'
        exact absurd hlow hmatch
      · intro _
        by_cases hne : s = "" <;>
          simp [handleDelete, hfind, hne, hmatch]

/-- C10 witness: a matching input deletes, a non-matching one is a no-op. -/
theorem claim_C10_witness :
    (handleDelete [⟨"a", "f.pdf", "h1"⟩] "a" (.entered "CONFIRM Delete")
        true).conversations = [] ∧
    handleDelete [⟨"a", "f.pdf", "h1"⟩] "a" (.entered "nope") true =
      { requestSent := none, conversations := [⟨"a", "f.pdf", "h1"⟩] } := by
  have h1 := claim_C10_delete_confirmation [⟨"a", "f.pdf", "h1"⟩] "a"
    ⟨"a", "f.pdf", "h1"⟩ (by decide) (.entered "CONFIRM Delete") true
  have h2 := claim_C10_delete_confirmation [⟨"a", "f.pdf", "h1"⟩] "a"
    ⟨"a", "f.pdf", "h1"⟩ (by decide) (.entered "nope") true
  constructor
  · rw [(h1.2.1 "CONFIRM Delete" rfl (by decide) rfl).1]
    decide
  · refine h2.2.2 ?_
    rintro ⟨s, hs, hlow⟩
    cases hs
    exact absurd hlow (by decide)

/-- Helper: the polling loop issues only the original file_hash as request
body. -/
theorem fetchLoop_requests_const (h : String) (resps : List PollResp) :
    ∀ b ∈ (fetchLoop h resps).requests, b = h := by
  induction resps with
  | nil => simp [fetchLoop]
  | cons r rest ih =>
    cases r with
    | processing =>
      intro b hb
      rcases List.mem_cons.mp hb with hb | hb
      · exact hb
      · exact ih b hb
    | success p => simp [fetchLoop]
    | failure => simp [fetchLoop]

/-- Helper: a trace of processing responses followed by a success makes the
loop record exactly that payload after exactly one identical request per
response. -/
theorem fetchLoop_terminal (h : String) :
    ∀ (k : Nat) (resps : List PollResp) (p : ExtractionResult),
      (∀ i, i < k → resps[i]? = some .processing) →
      resps[k]? = some (.success p) →
      fetchLoop h resps =
        { requests := List.replicate (k + 1) h, recorded := some p
          failed := false } := by
  intro k
  induction k with
  | zero =>
    intro resps p _ hk
    cases resps with
    | nil => simp at hk
    | cons r rest =>
      simp only [List.getElem?_cons_zero, Option.some.injEq] at hk
      subst hk
      simp [fetchLoop, List.replicate]
  | succ k ih =>
    intro resps p hlt hk
    cases resps with
    | nil => simp at hk
    | cons r rest =>
      have h0 := hlt 0 (Nat.succ_pos k)
      simp only [List.getElem?_cons_zero, Option.some.injEq] at h0
      subst h0
      have hrest : fetchLoop h rest =
          { requests := List.replicate (k + 1) h, recorded := some p
            failed := false } := by
        refine ih rest p ?_ ?_
        · intro i hi
          have := hlt (i + 1) (Nat.succ_lt_succ hi)
          simpa using this
        · simpa using hk
      simp [fetchLoop, hrest, List.replicate]

/-- C2: while a job is RUNNING the extract operation responds
`processing` immediately and unchanged; the client polling loop re-issues
the identical request (same file_hash body) on every `processing` response
without recording, and upon the first successful non-processing response
records that payload and issues no further request. -/
theorem claim_C2_polling_contract :
    (∀ t d j, attachable t d = some j → j.status = .running →
        extract t d = (t, .processing)) ∧
    (∀ h resps, ∀ b ∈ (fetchLoop h resps).requests, b = h) ∧
    (∀ h (k : Nat) (resps : List PollResp) p,
        (∀ i, i < k → resps[i]? = some .processing) →
        resps[k]? = some (.success p) →
        fetchLoop h resps =
          { requests := List.replicate (k + 1) h, recorded := some p
            failed := false }) := by
  refine ⟨?_, fetchLoop_requests_const, fun h k r p => fetchLoop_terminal h k r p⟩
  intro t d j hat hst
  obtain ⟨dd, id, st, res, err, ts⟩ := j
  cases hst
  unfold extract
  rw [hat]

/-- C2 witness: a RUNNING job answers processing, and a
processing-processing-success trace yields three identical requests and
the recorded payload. -/
theorem claim_C2_witness :
    extract
      { jobs := [{ docId := "d", jobId := 0, status := .running,
                   result := none, errorDetail := none, startedAt := 0 }],
        nextId := 1, clock := 1 } "d" =
      ({ jobs := [{ docId := "d", jobId := 0, status := .running,
                    result := none, errorDetail := none, startedAt := 0 }],
         nextId := 1, clock := 1 }, .processing) ∧
    fetchLoop "h1"
        [.processing, .processing,
         .success ⟨⟨"invoice", "an invoice", 1⟩, []⟩] =
      { requests := ["h1", "h1", "h1"],
        recorded := some ⟨⟨"invoice", "an invoice", 1⟩, []⟩,
        failed := false } := by
  constructor
  · exact claim_C2_polling_contract.1
      { jobs := [{ docId := "d", jobId := 0, status := .running,
                   result := none, errorDetail := none, startedAt := 0 }],
        nextId := 1, clock := 1 }
      "d"
      { docId := "d", jobId := 0, status := .running,
        result := none, errorDetail := none, startedAt := 0 }
      (by decide) rfl
  · have := claim_C2_polling_contract.2.2 "h1" 2
      [.processing, .processing,
       .success ⟨⟨"invoice", "an invoice", 1⟩, []⟩]
      ⟨⟨"invoice", "an invoice", 1⟩, []⟩
      (by decide) (by decide)
    rw [this]
    decide

/-- Helper: the loop stops with a recorded payload or a failure exactly
when the trace holds a non-processing response. -/
theorem fetchLoop_stops_iff (h : String) (resps : List PollResp) :
    ((fetchLoop h resps).recorded.isSome = true ∨
      (fetchLoop h resps).failed = true) ↔
    ∃ r ∈ resps, r ≠ .processing := by
  induction resps with
  | nil => simp [fetchLoop]
  | cons r rest ih =>
    cases r with
    | processing =>
      simp only [fetchLoop]
      rw [ih]
      simp
    | success p => simp [fetchLoop]
    | failure => simp [fetchLoop]

/-- C8: the Dashboard key-value polling loop has no cancellation
mechanism: on an all-processing trace it issues one more identical request
per response and records nothing, and it stops only when some response is
non-processing or a fetch fails; its terminal branch overwrites
adaptiveData whatever the currently selected document is; the
AdaptiveDetailsPage variant, in contrast, issues no request and performs
no write once its isCancelled flag is set at loop entry. -/
theorem claim_C8_no_cancellation :
    (∀ h n, fetchLoop h (List.replicate n .processing) =
        { requests := List.replicate (n + 1) h, recorded := none
          failed := false }) ∧
    (∀ h resps,
        ((fetchLoop h resps).recorded.isSome = true ∨
          (fetchLoop h resps).failed = true) ↔
        ∃ r ∈ resps, r ≠ .processing) ∧
    (∀ s p, dashOnTerminal s p =
        { activeConversationId := s.activeConversationId
          adaptiveData := some p, isAdaptiveLoading := false }) ∧
    (∀ h cancelled i resps, cancelled i = true →
        adaptiveLoop h cancelled i resps =
          { requests := [], recorded := none, failed := false }) := by
  refine ⟨?_, fetchLoop_stops_iff, fun s p => rfl, ?_⟩
  · intro h n
    induction n with
    | zero => simp [fetchLoop, List.replicate]
    | succ n ih => simp [fetchLoop, List.replicate, ih]
  · intro h cancelled i resps hc
    unfold adaptiveLoop
    rw [hc]
    simp

/-- C8 witness: an all-processing trace keeps the Dashboard loop running
with no record even though cancellation is requested, the late terminal
write lands while another document is active, and the AdaptiveDetailsPage
loop halts when cancelled. -/
theorem claim_C8_witness :
    fetchLoop "h1" (List.replicate 3 .processing) =
      { requests := ["h1", "h1", "h1", "h1"], recorded := none
        failed := false } ∧
    dashOnTerminal
        { activeConversationId := some "other", adaptiveData := none
          isAdaptiveLoading := false } ⟨⟨"t", "d", 1⟩, []⟩ =
      { activeConversationId := some "other"
        adaptiveData := some ⟨⟨"t", "d", 1⟩, []⟩
        isAdaptiveLoading := false } ∧
    adaptiveLoop "h1" (fun _ => true) 0 (List.replicate 3 .processing) =
      { requests := [], recorded := none, failed := false } := by
  refine ⟨?_, ?_, ?_⟩
  · rw [claim_C8_no_cancellation.1 "h1" 3]
    decide
  · exact claim_C8_no_cancellation.2.2.1 _ _
  · exact claim_C8_no_cancellation.2.2.2 "h1" (fun _ => true) 0 _ rfl

/-- Helper: a filter over a mapped list is no longer than over the
original when the map never turns a rejected element into an accepted
one. -/
theorem filter_map_length_le {α : Type} (f : α → α) (p : α → Bool)
    (l : List α) (hf : ∀ x ∈ l, p (f x) = true → p x = true) :
    ((l.map f).filter p).length ≤ (l.filter p).length := by
  induction l with
  | nil => simp
  | cons x xs ih =>
    have hx := hf x (List.mem_cons_self x xs)
    have ihx := ih fun y hy hp => hf y (List.mem_cons_of_mem x hy) hp
    simp only [List.map_cons, List.filter_cons]
    by_cases hfx : p (f x) = true
    · rw [if_pos hfx, if_pos (hx hfx)]
      simpa using Nat.succ_le_succ ihx
    · rw [if_neg hfx]
      cases hpx : p x
      · rw [if_neg (by simp [hpx])]
        exact ihx
      · rw [if_pos (by simp [hpx])]
        exact Nat.le_succ_of_le ihx

/-- Helper: the conditional write never makes a job RUNNING for the
running-jobs-per-document filter. -/
theorem casFinish_pred_le (id : Nat) (o : Except String ExtractionResult)
    (d : String) (j : Job) :
    ((casFinish id o j).docId == d && (casFinish id o j).status == .running)
        = true →
    (j.docId == d && j.status == .running) = true := by
  intro h
  unfold casFinish at h
  split at h
  · cases o with
    | ok r =>
      simp at h
      exact absurd h.2 (by decide)
    | error e =>
      simp at h
      exact absurd h.2 (by decide)
  · exact h

/-- Helper: attaching to an existing job leaves the tracker unchanged. -/
theorem start_or_attach_of_some (t : Tracker) (d : String) (j : Job)
    (hat : attachable t d = some j) :
    start_or_attach t d = (t, j.jobId, false) := by
  unfold start_or_attach
  rw [hat]

/-- Helper: with no attachable job, `start_or_attach` creates the fresh
RUNNING job. -/
theorem start_or_attach_of_none (t : Tracker) (d : String)
    (hat : attachable t d = none) :
    start_or_attach t d = (afterFirstStart t d, t.nextId, true) := by
  unfold start_or_attach afterFirstStart freshJob
  rw [hat]

/-- Helper: every tracker operation preserves the at-most-one-RUNNING
invariant. -/
theorem runInv_step (t : Tracker) (hInv : RunInv t) (op : TrackerOp) :
    RunInv (t.step op) := by
  cases op with
  | start d =>
    intro d0
    show countRunning (start_or_attach t d).1 d0 ≤ 1
    cases hat : attachable t d with
    | some j =>
      rw [start_or_attach_of_some t d j hat]
      exact hInv d0
    | none =>
      rw [start_or_attach_of_none t d hat]
      have hall : ∀ j ∈ t.jobs, ¬ (attachPred d j = true) :=
        List.find?_eq_none.mp hat
      by_cases hd : d = d0
      · subst hd
        have hzero :
            t.jobs.filter (fun j => j.docId == d && j.status == .running)
              = [] := by
          rw [List.filter_eq_nil_iff]
          intro j hj hp
          apply hall j hj
          rw [Bool.and_eq_true] at hp
          unfold attachPred
          rw [hp.1, hp.2]
          rfl
        unfold countRunning afterFirstStart
        rw [List.filter_cons,
          if_pos (by simp [freshJob,
            show (JobStatus.running == JobStatus.running) = true from rfl]),
          hzero]
        rfl
      · unfold countRunning afterFirstStart
        rw [List.filter_cons, if_neg (by simp [freshJob, hd])]
        exact hInv d0
  | finish id o =>
    intro d0
    show countRunning (complete t id o).1 d0 ≤ 1
    unfold complete
    split
    · have hle := filter_map_length_le (casFinish id o)
        (fun j => j.docId == d0 && j.status == .running) t.jobs
        (fun x _ hp => casFinish_pred_le id o d0 x hp)
      exact Nat.le_trans hle (hInv d0)
    · exact hInv d0

/-- Helper: the at-most-one-RUNNING invariant holds at every reachable
state. -/
theorem runInv_run (ops : List TrackerOp) : RunInv (Tracker.run ops) := by
  have haux : ∀ (l : List TrackerOp) (t : Tracker), RunInv t →
      RunInv (l.foldl Tracker.step t) := by
    intro l
    induction l with
    | nil => intro t h; exact h
    | cons op rest ih =>
      intro t h
      exact ih _ (runInv_step t h op)
  exact haux ops Tracker.init (fun d => by simp [countRunning, Tracker.init])

/-- Helper: a never-before-seen identity has no attachable job. -/
theorem attachable_none_of_noJob (t : Tracker) (d : String)
    (h : NoJobFor t d) : attachable t d = none := by
  apply List.find?_eq_none.mpr
  intro j hj
  have hne := h j hj
  simp [attachPred, hne]

/-- Helper: the first call for a fresh identity starts the job. -/
theorem start_fresh (t : Tracker) (d : String) (h : NoJobFor t d) :
    start_or_attach t d = (afterFirstStart t d, t.nextId, true) :=
  start_or_attach_of_none t d (attachable_none_of_noJob t d h)

/-- Helper: the fresh job satisfies the attach predicate for its own
identity. -/
theorem attachPred_freshJob (t : Tracker) (d : String) :
    attachPred d (freshJob t d) = true := by
  simp [attachPred, freshJob,
    show (JobStatus.running == JobStatus.running) = true from rfl]

/-- Helper: after the fresh start, the new RUNNING job is the attachable
one. -/
theorem attachable_afterFirstStart (t : Tracker) (d : String) :
    attachable (afterFirstStart t d) d = some (freshJob t d) := by
  unfold attachable afterFirstStart
  rw [List.find?_cons, attachPred_freshJob]

/-- Helper: every further call attaches to the winner's job without
changing the state. -/
theorem startN_attaches (t : Tracker) (d : String) :
    ∀ n, startN d n (afterFirstStart t d) =
      (afterFirstStart t d, List.replicate n (t.nextId, false)) := by
  have hone : start_or_attach (afterFirstStart t d) d =
      (afterFirstStart t d, t.nextId, false) := by
    unfold start_or_attach
    rw [attachable_afterFirstStart]
    rfl
  intro n
  induction n with
  | zero => simp [startN]
  | succ n ih =>
    unfold startN
    rw [hone]
    dsimp only
    rw [ih, List.replicate_succ]

/-- C1: at every reachable state of the Extraction Job Tracker at most one
job per document identity is RUNNING; and N `start_or_attach` calls for a
never-before-seen document identity start exactly one background job (the
first call, flag true, all later flags false), give every caller the same
handle, and leave exactly one (RUNNING) job record for that identity. -/
theorem claim_C1_at_most_one_running :
    (∀ ops d, countRunning (Tracker.run ops) d ≤ 1) ∧
    (∀ (t : Tracker) (d : String) (n : Nat), NoJobFor t d →
        (startN d (n + 1) t).2 =
          (t.nextId, true) :: List.replicate n (t.nextId, false) ∧
        jobsFor (startN d (n + 1) t).1 d = [freshJob t d]) := by
  constructor
  · intro ops d
    exact runInv_run ops d
  · intro t d n h
    have hfold : startN d (n + 1) t =
        (afterFirstStart t d,
          (t.nextId, true) :: List.replicate n (t.nextId, false)) := by
      unfold startN
      rw [start_fresh t d h]
      dsimp only
      rw [startN_attaches t d n]
    rw [hfold]
    refine ⟨rfl, ?_⟩
    unfold jobsFor afterFirstStart
    rw [List.filter_cons, if_pos (by simp [freshJob])]
    have hrest : t.jobs.filter (fun j => j.docId == d) = [] := by
      rw [List.filter_eq_nil_iff]
      intro j hj
      simp [h j hj]
    rw [hrest]

/-- C1 witness: from the empty tracker, three calls for one identity give
one started job with handle 0 and a single RUNNING record. -/
theorem claim_C1_witness :
    countRunning (Tracker.run [.start "d", .start "d"]) "d" ≤ 1 ∧
    (startN "d" 3 Tracker.init).2 = [(0, true), (0, false), (0, false)] ∧
    jobsFor (startN "d" 3 Tracker.init).1 "d" =
      [{ docId := "d", jobId := 0, status := .running, result := none,
         errorDetail := none, startedAt := 0 }] := by
  have h := claim_C1_at_most_one_running.2 Tracker.init "d" 2
    (fun j hj => by simp [Tracker.init] at hj)
  refine ⟨claim_C1_at_most_one_running.1 _ "d", ?_, ?_⟩
  · rw [h.1]
    decide
  · rw [h.2]
    decide

/-- Helper: boolean equality on job statuses agrees with equality. -/
theorem jobStatus_beq_iff (a b : JobStatus) : (a == b) = true ↔ a = b := by
  cases a <;> cases b <;> decide

/-- Helper: after an effective completion no job with that handle is
RUNNING any more. -/
theorem complete_clears_running (t : Tracker) (id : Nat)
    (o : Except String ExtractionResult) :
    ((t.jobs.map (casFinish id o)).any
        (fun j => j.jobId == id && j.status == .running)) = false := by
  rw [List.any_map, List.any_eq_false]
  intro x _
  show ¬ (((casFinish id o x).jobId == id &&
    (casFinish id o x).status == .running) = true)
  unfold casFinish
  split
  · cases o with
    | ok r =>
      simp
      intro _
      decide
    | error e =>
      simp
      intro _
      decide
  · rename_i hcond
    simpa using hcond

/-- C4: background completion transitions RUNNING to SUCCEEDED or FAILED
exactly once (a second conditional write against the same handle is a
no-op that leaves the tracker unchanged); no operation removes or alters a
job record already in a terminal state, so a SUCCEEDED job never
regresses; the conditional write can only change a status from RUNNING to
a terminal one; and a document identity whose jobs have all FAILED is
restarted only by an explicit new `start_or_attach`, which creates a fresh
RUNNING job. -/
theorem claim_C4_terminal_exactly_once :
    (∀ (t : Tracker) id o t₁, complete t id o = (t₁, true) →
        ∀ o', complete t₁ id o' = (t₁, false)) ∧
    (∀ (t : Tracker) (op : TrackerOp) (j : Job),
        j ∈ t.jobs → j.status ≠ .running → j ∈ (t.step op).jobs) ∧
    (∀ id o j, (casFinish id o j).status = j.status ∨
        (j.status = .running ∧
          ((casFinish id o j).status = .succeeded ∨
            (casFinish id o j).status = .failed))) ∧
    (∀ t d, (∀ j ∈ t.jobs, j.docId = d → j.status = .failed) →
        start_or_attach t d = (afterFirstStart t d, t.nextId, true) ∧
        (freshJob t d).status = .running) := by
  refine ⟨?_, ?_, ?_, ?_⟩
  · intro t id o t₁ hc o'
    unfold complete at hc
    split at hc
    · cases hc
      unfold complete
      rw [if_neg (by simp [complete_clears_running t id o])]
    · cases hc
  · intro t op j hj hst
    cases op with
    | start d =>
      show j ∈ (start_or_attach t d).1.jobs
      cases hat : attachable t d with
      | some j' =>
        rw [start_or_attach_of_some t d j' hat]
        exact hj
      | none =>
        rw [start_or_attach_of_none t d hat]
        exact List.mem_cons_of_mem _ hj
    | finish id o =>
      show j ∈ (complete t id o).1.jobs
      unfold complete
      split
      · have hfix : casFinish id o j = j := by
          unfold casFinish
          rw [if_neg]
          intro hcond
          rw [Bool.and_eq_true] at hcond
          exact hst ((jobStatus_beq_iff _ _).mp hcond.2)
        exact hfix ▸ List.mem_map_of_mem (casFinish id o) hj
      · exact hj
  · intro id o j
    unfold casFinish
    split
    · rename_i hcond
      rw [Bool.and_eq_true] at hcond
      have hrun : j.status = .running := (jobStatus_beq_iff _ _).mp hcond.2
      cases o with
      | ok r => exact Or.inr ⟨hrun, Or.inl rfl⟩
      | error e => exact Or.inr ⟨hrun, Or.inr rfl⟩
    · exact Or.inl rfl
  · intro t d hall
    have hat : attachable t d = none := by
      apply List.find?_eq_none.mpr
      intro j hj
      by_cases hdoc : j.docId = d
      · have hfail := hall j hj hdoc
        simp [attachPred, hdoc, hfail]
        decide
      · simp [attachPred, hdoc]
    exact ⟨start_or_attach_of_none t d hat, rfl⟩

/-- C4 witness: completing a concrete RUNNING job succeeds once and the
second write is a no-op; a SUCCEEDED record survives a later start; a
FAILED-only identity is restarted by start_or_attach. -/
theorem claim_C4_witness :
    complete
        { jobs := [{ docId := "d", jobId := 0, status := .succeeded,
                     result := some ⟨⟨"t", "x", 1⟩, []⟩, errorDetail := none,
                     startedAt := 0 }],
          nextId := 1, clock := 1 } 0 (.error "late") =
      ({ jobs := [{ docId := "d", jobId := 0, status := .succeeded,
                    result := some ⟨⟨"t", "x", 1⟩, []⟩, errorDetail := none,
                    startedAt := 0 }],
         nextId := 1, clock := 1 }, false) ∧
    { docId := "d", jobId := 0, status := .succeeded,
      result := some ⟨⟨"t", "x", 1⟩, []⟩, errorDetail := none,
      startedAt := 0 } ∈
      (Tracker.step
        { jobs := [{ docId := "d", jobId := 0, status := .succeeded,
                     result := some ⟨⟨"t", "x", 1⟩, []⟩, errorDetail := none,
                     startedAt := 0 }],
          nextId := 1, clock := 1 } (.start "e")).jobs ∧
    start_or_attach
        { jobs := [{ docId := "d", jobId := 0, status := .failed,
                     result := none, errorDetail := some "boom",
                     startedAt := 0 }],
          nextId := 1, clock := 1 } "d" =
      (afterFirstStart
        { jobs := [{ docId := "d", jobId := 0, status := .failed,
                     result := none, errorDetail := some "boom",
                     startedAt := 0 }],
          nextId := 1, clock := 1 } "d", 1, true) := by
  refine ⟨?_, ?_, ?_⟩
  · exact claim_C4_terminal_exactly_once.1
      { jobs := [{ docId := "d", jobId := 0, status := .running,
                   result := none, errorDetail := none, startedAt := 0 }],
        nextId := 1, clock := 1 } 0 (.ok ⟨⟨"t", "x", 1⟩, []⟩) _
      (by decide) (.error "late")
  · exact claim_C4_terminal_exactly_once.2.1 _ (.start "e") _
      (by decide) (by decide)
  · exact (claim_C4_terminal_exactly_once.2.2.2
      { jobs := [{ docId := "d", jobId := 0, status := .failed,
                   result := none, errorDetail := some "boom",
                   startedAt := 0 }],
        nextId := 1, clock := 1 } "d"
      (by decide)).1

/-- C3: a second `ask` with the same (document identity, question) returns
the identical persisted Question/Answer Record, leaves the cache
unchanged, and performs zero Completion Client invocations (exact-match
cache hit). -/
theorem claim_C3_ask_idempotent (env : AskEnv) (cache : List QARecord)
    (d q : String) (now now' : Nat) (r : QARecord) (cache' : List QARecord)
    (n : Nat) (h : ask env cache d q now = (.ok r, cache', n)) :
    ask env cache' d q now' = (.ok r, cache', 0) := by
  unfold ask at h ⊢
  by_cases htrim : strTrim q = ""
  · rw [if_pos htrim] at h
    cases h
  · rw [if_neg htrim] at h ⊢
    cases hget : cacheGet cache d q with
    | some r0 =>
      rw [hget] at h
      cases h
      rw [hget]
    | none =>
      rw [hget] at h
      dsimp only at h
      cases hgt : env.getText d with
      | none =>
        rw [hgt] at h
        cases h
      | some pages =>
        rw [hgt] at h
        dsimp only at h
        cases hct : env.completeText (env.buildPrompt q pages) with
        | none =>
          rw [hct] at h
          cases h
        | some raw =>
          rw [hct] at h
          dsimp only at h
          by_cases hraw : raw = ""
          · rw [if_pos hraw] at h
            cases h
          · rw [if_neg hraw] at h
            cases hp : parse_answer env.decode env.repair raw with
            | error e =>
              rw [hp] at h
              cases h
            | ok pa =>
              rw [hp] at h
              dsimp only at h
              cases h
              have hhit : cacheGet (mkRecord d q pa now :: cache) d q =
                  some (mkRecord d q pa now) := by
                unfold cacheGet
                rw [List.find?_cons]
                have hpred :
                    ((mkRecord d q pa now).docId == d &&
                      (mkRecord d q pa now).question == q) = true := by
                  simp [mkRecord]
                rw [hpred]
              rw [hhit]

/-- C3 witness: a concrete environment where the first ask performs one
model call and the second returns the identical record with none. -/
theorem claim_C3_witness :
    ask
      { getText := fun _ => some [(1, "page text")]
        completeText := fun _ => some "{x}"
        decode := fun _ => some (.obj [("answer", .str "42")])
        repair := id
        buildPrompt := fun q _ => q }
      [mkRecord "doc" "q"
        { answer := "42", confidence := 0, reasoning := ""
          source := none, verified := false } 5]
      "doc" "q" 9 =
    (.ok (mkRecord "doc" "q"
        { answer := "42", confidence := 0, reasoning := ""
          source := none, verified := false } 5),
      [mkRecord "doc" "q"
        { answer := "42", confidence := 0, reasoning := ""
          source := none, verified := false } 5], 0) := by
  exact claim_C3_ask_idempotent
    { getText := fun _ => some [(1, "page text")]
      completeText := fun _ => some "{x}"
      decode := fun _ => some (.obj [("answer", .str "42")])
      repair := id
      buildPrompt := fun q _ => q }
    [] "doc" "q" 5 9
    (mkRecord "doc" "q"
      { answer := "42", confidence := 0, reasoning := ""
        source := none, verified := false } 5)
    [mkRecord "doc" "q"
      { answer := "42", confidence := 0, reasoning := ""
        source := none, verified := false } 5]
    1 rfl

/-- C7: the Ask endpoint never answers 200 with a null or missing answer
field: whenever the status is 200 the body carries an answer field that is
a JSON string, hence not JSON null. -/
theorem claim_C7_no_null_answer (env : AskEnv) (cache : List QARecord)
    (d q : String) (now : Nat) (status : Nat) (body : Json)
    (cache₂ : List QARecord)
    (h : askEndpoint env cache d q now = (status, body, cache₂)) :
    status = 200 →
    ∃ a, body.getField "answer" = some (.str a) ∧ Json.str a ≠ Json.null := by
  intro hs
  unfold askEndpoint at h
  cases hask : ask env cache d q now with
  | mk res rest =>
    obtain ⟨c2, n⟩ := rest
    rw [hask] at h
    cases res with
    | ok r =>
      cases h
      exact ⟨r.answer, rfl, by simp⟩
    | error e =>
      cases h
      cases e <;> simp [errorStatus] at hs

/-- C7 witness: a concrete successful ask yields a 200 body whose answer
field is the string produced by the parser. -/
theorem claim_C7_witness :
    ∃ a, Json.getField
        (askEndpoint
          { getText := fun _ => some [(1, "page text")]
            completeText := fun _ => some "{x}"
            decode := fun _ => some (.obj [("answer", .str "42")])
            repair := id
            buildPrompt := fun q _ => q } [] "doc" "q" 5).2.1 "answer" =
      some (.str a) ∧ Json.str a ≠ Json.null := by
  exact claim_C7_no_null_answer
    { getText := fun _ => some [(1, "page text")]
      completeText := fun _ => some "{x}"
      decode := fun _ => some (.obj [("answer", .str "42")])
      repair := id
      buildPrompt := fun q _ => q }
    [] "doc" "q" 5 _ _ _ rfl rfl

/-- Helper: a successful bracket-depth scan consumes exactly a prefix of
its input, and re-running the scan on that prefix alone reproduces the
chunk. -/
theorem scanChunk_spec :
    ∀ (cs : List Char) (inStr esc : Bool) (depth : Nat)
      (acc out : List Char),
      scanChunk cs inStr esc depth acc = some out →
      ∃ n, out = acc.reverse ++ cs.take n ∧
        scanChunk (cs.take n) inStr esc depth acc = some out := by
  intro cs
  induction cs with
  | nil =>
    intro inStr esc depth acc out h
    simp [scanChunk] at h
  | cons c rest ih =>
    intro inStr esc depth acc out h
    rw [scanChunk] at h
    by_cases hterm : inStr = false ∧ c = '}' ∧ depth = 1
    · rw [if_pos hterm] at h
      cases h
      refine ⟨1, ?_, ?_⟩
      · simp
      · rw [List.take_succ_cons, List.take_zero, scanChunk, if_pos hterm]
    · rw [if_neg hterm] at h
      obtain ⟨n, hout, hrun⟩ := ih _ _ _ _ _ h
      refine ⟨n + 1, ?_, ?_⟩
      · rw [hout, List.take_succ_cons]
        simp
      · rw [List.take_succ_cons, scanChunk, if_neg hterm]
        exact hrun

/-- Helper: without any opening brace the bracket-depth scan from depth
zero never succeeds. -/
theorem scanChunk_none_of_no_brace :
    ∀ (cs : List Char), (∀ c ∈ cs, c ≠ '{') →
      ∀ inStr esc acc, scanChunk cs inStr esc 0 acc = none := by
  intro cs
  induction cs with
  | nil =>
    intro _ inStr esc acc
    rfl
  | cons c rest ih =>
    intro hnb inStr esc acc
    have hc : c ≠ '{' := hnb c (List.mem_cons_self c rest)
    rw [scanChunk,
      if_neg (by rintro ⟨_, _, hdep⟩; exact absurd hdep (by decide))]
    have hd : (scanStep c inStr esc 0).2.2 = 0 := by
      unfold scanStep
      split_ifs <;> simp_all
    rw [hd]
    exact ih (fun x hx => hnb x (List.mem_cons_of_mem c hx)) _ _ _

/-- Helper: a successful span location witnesses a balanced braced span in
the input. -/
theorem findSpan_sound :
    ∀ (cs chunk : List Char), findSpan cs = some chunk →
      ∃ i n, IsBalancedSpan ((cs.drop i).take n) := by
  intro cs
  induction cs with
  | nil =>
    intro chunk h
    simp [findSpan] at h
  | cons c rest ih =>
    intro chunk h
    rw [findSpan] at h
    by_cases hc : c = '{'
    · rw [if_pos hc] at h
      cases hsc : scanChunk (c :: rest) false false 0 [] with
      | some chunk' =>
        obtain ⟨n, hout, hrun⟩ := scanChunk_spec (c :: rest) false false 0
          [] chunk' hsc
        refine ⟨0, n, ?_⟩
        rw [List.drop_zero]
        unfold IsBalancedSpan
        rw [hrun, hout]
        simp
      | none =>
        rw [hsc] at h
        obtain ⟨i, n, hb⟩ := ih chunk h
        exact ⟨i + 1, n, by rw [List.drop_succ_cons]; exact hb⟩
    · rw [if_neg hc] at h
      obtain ⟨i, n, hb⟩ := ih chunk h
      exact ⟨i + 1, n, by rw [List.drop_succ_cons]; exact hb⟩

/-- C6: on raw text containing no balanced braced span anywhere,
`parse_answer` raises MalformedResponse — for every structural decoder and
repair pass, so no fabricated answer record can be produced. -/
theorem claim_C6_malformed_on_no_span (raw : String)
    (h : ¬ HasBalancedSpan raw) (decode : String → Option Json)
    (repair : String → String) :
    parse_answer decode repair raw = .error .malformedResponse := by
  cases hfs : findSpan raw.data with
  | none =>
    unfold parse_answer
    rw [hfs]
  | some chunk =>
    exact absurd (findSpan_sound raw.data chunk hfs) h

/-- C6 witness: the braceless text "ab" has no balanced span and parses to
MalformedResponse. -/
theorem claim_C6_witness :
    ¬ HasBalancedSpan "ab" ∧
    parse_answer (fun _ => none) id "ab" = .error .malformedResponse := by
  have hdata : "ab".data = ['a', 'b'] := rfl
  have hno : ¬ HasBalancedSpan "ab" := by
    rintro ⟨i, n, hb⟩
    have hb' : scanChunk (("ab".data.drop i).take n) false false 0 [] =
        some (("ab".data.drop i).take n) := hb
    have hnb : ∀ c ∈ ("ab".data.drop i).take n, c ≠ '{' := by
      intro c hcmem
      have hmem : c ∈ "ab".data :=
        List.drop_subset i "ab".data (List.take_subset n _ hcmem)
      rw [hdata] at hmem
      have hab : c = 'a' ∨ c = 'b' := by simpa using hmem
      rcases hab with hx | hx <;> (subst hx; decide)
    rw [scanChunk_none_of_no_brace _ hnb false false []] at hb'
    cases hb'
  exact ⟨hno, claim_C6_malformed_on_no_span "ab" hno (fun _ => none) id⟩

/-- C5: whenever the structural decode of the located span succeeds and an
answer string is present, the parse does not fail and returns the record
with the confidence coerced through `coerceConfidence` and all other
fields taken unchanged from the decoded object; the coercion maps every
value into [0,1], passes 0.0 and 1.0 (and every in-range value) through
unchanged, clamps -0.1 to 0.0 and 1.1 to 1.0, and defaults any non-numeric
confidence to 0.0. -/
theorem claim_C5_confidence_coercion :
    (∀ (decode : String → Option Json) (repair : String → String)
        (raw : String) (chunk : List Char) (j : Json) (a : String),
        findSpan raw.data = some chunk →
        decode (String.mk chunk) = some j →
        j.getField "answer" = some (.str a) →
        ∃ r, parse_answer decode repair raw = .ok r ∧
          r.answer = a ∧
          r.confidence = coerceConfidence (j.getField "confidence") ∧
          r.source = j.getField "source" ∧
          (∀ rs, j.getField "reasoning" = some (.str rs) →
            r.reasoning = rs) ∧
          (∀ b, j.getField "verified" = some (.bool b) →
            r.verified = b)) ∧
    (∀ q : Rat, 0 ≤ q → q ≤ 1 → coerceConfidence (some (.num q)) = q) ∧
    coerceConfidence (some (.num 0)) = 0 ∧
    coerceConfidence (some (.num 1)) = 1 ∧
    coerceConfidence (some (.num (-(1 / 10)))) = 0 ∧
    coerceConfidence (some (.num (11 / 10))) = 1 ∧
    (∀ v : Json, (∀ q, v ≠ .num q) → coerceConfidence (some v) = 0) ∧
    (∀ oj, 0 ≤ coerceConfidence oj ∧ coerceConfidence oj ≤ 1) := by
  refine ⟨?_, ?_, ?_, ?_, ?_, ?_, ?_, ?_⟩
  · intro decode repair raw chunk j a hfs hdec hans
    unfold parse_answer
    rw [hfs]
    dsimp only
    rw [hdec]
    dsimp only
    unfold buildAnswerRecord
    rw [hans]
    dsimp only
    refine ⟨_, rfl, rfl, rfl, rfl, ?_, ?_⟩
    · intro rs hrs
      dsimp only
      rw [hrs]
    · intro b hb
      dsimp only
      rw [hb]
  · intro q h0 h1
    show clamp01 q = q
    unfold clamp01
    rw [min_eq_right h1, max_eq_right h0]
  · norm_num [coerceConfidence, clamp01]
  · norm_num [coerceConfidence, clamp01]
  · norm_num [coerceConfidence, clamp01]
  · norm_num [coerceConfidence, clamp01]
  · intro v hv
    cases v with
    | num q => exact absurd rfl (hv q)
    | null => rfl
    | bool b => rfl
    | str s => rfl
    | arr elems => rfl
    | obj fields => rfl
  · intro oj
    match oj with
    | none => exact ⟨le_refl 0, by norm_num [coerceConfidence]⟩
    | some (.num q) =>
      exact ⟨le_max_left 0 _,
        max_le (by norm_num) (min_le_left 1 q)⟩
    | some .null => exact ⟨le_refl 0, by norm_num [coerceConfidence]⟩
    | some (.bool b) => exact ⟨le_refl 0, by norm_num [coerceConfidence]⟩
    | some (.str s) => exact ⟨le_refl 0, by norm_num [coerceConfidence]⟩
    | some (.arr es) => exact ⟨le_refl 0, by norm_num [coerceConfidence]⟩
    | some (.obj fs) => exact ⟨le_refl 0, by norm_num [coerceConfidence]⟩

/-- C5 witness: a decoded object with confidence 3/2 parses successfully
with the clamped confidence, and in-range plus non-numeric confidence
values coerce as claimed. -/
theorem claim_C5_witness :
    (∃ r, parse_answer
        (fun _ => some (.obj [("answer", .str "42"),
          ("confidence", .num (3 / 2))])) id "{x}" = .ok r ∧
      r.answer = "42" ∧
      r.confidence = coerceConfidence
        (Json.getField (.obj [("answer", .str "42"),
          ("confidence", .num (3 / 2))]) "confidence") ∧
      r.source = Json.getField (.obj [("answer", .str "42"),
          ("confidence", .num (3 / 2))]) "source" ∧
      (∀ rs, Json.getField (.obj [("answer", .str "42"),
          ("confidence", .num (3 / 2))]) "reasoning" = some (.str rs) →
        r.reasoning = rs) ∧
      (∀ b, Json.getField (.obj [("answer", .str "42"),
          ("confidence", .num (3 / 2))]) "verified" = some (.bool b) →
        r.verified = b)) ∧
    coerceConfidence (some (.num (1 / 2))) = 1 / 2 ∧
    coerceConfidence (some (.str "high")) = 0 := by
  refine ⟨?_, ?_, ?_⟩
  · exact claim_C5_confidence_coercion.1
      (fun _ => some (.obj [("answer", .str "42"),
        ("confidence", .num (3 / 2))])) id "{x}" "{x}".data
      (.obj [("answer", .str "42"), ("confidence", .num (3 / 2))]) "42"
      rfl rfl rfl
  · exact claim_C5_confidence_coercion.2.1 (1 / 2) (by norm_num)
      (by norm_num)
  · exact claim_C5_confidence_coercion.2.2.2.2.2.2.1 (.str "high")
      (fun q => by intro hq; cases hq)

end DocSage
